import Mathlib

/-!
Shallow embedding of the anweb backend (`src/backend/app.js`), a pipeline that
reads a JSON array of student records, derives a per-record `classcode` from
the record's position, and writes record fields into fixed cell addresses of
spreadsheet worksheets (either filling one template sheet, or cloning a
"form" sheet once per record).

External primitives (the filesystem, `JSON.parse`, and the exceljs workbook
object model) are modelled explicitly: the filesystem as a partial map from
paths to contents, `JSON.parse` as a partial map from strings to JSON values,
and a worksheet as its cell-value store together with the merged-range
master-resolution map.  Everything below the external boundary is translated
directly from the JavaScript source.
-/

/-- JSON values, the universe of data flowing through the program. -/
inductive JsonValue where
  | null
  | bool (b : Bool)
  | num (n : Int)
  | str (s : String)
  | arr (xs : List JsonValue)
  | obj (fields : List (String × JsonValue))

/-- A JavaScript object, as an ordered field list (JS objects keep insertion
order of keys). -/
abbrev Record := List (String × JsonValue)

/-- Property access `r.k`: `none` models JavaScript `undefined` (field
absent). -/
def getField (r : Record) (k : String) : Option JsonValue :=
  (r.find? (fun p => p.1 == k)).map (fun p => p.2)

/-- Assignment of field `k` in an object literal such as `{...item, classcode}`:
in JavaScript a key already present keeps its position and gets the new value,
a fresh key is appended at the end. -/
def setField (r : Record) (k : String) (v : JsonValue) : Record :=
  match r with
  | [] => [(k, v)]
  | p :: rest => if p.1 = k then (k, v) :: rest else p :: setField rest k v

/-- The JavaScript nullish-coalescing operator `x ?? d`: `undefined` (absent
field, `none`) and `null` both fall through to the default. -/
def nullish (v : Option JsonValue) (d : JsonValue) : JsonValue :=
  match v with
  | none => d
  | some JsonValue.null => d
  | some x => x

/-- Little-endian decimal digits of `n`, fuel-based so that it is structural
recursion (any `fuel > n` is enough fuel). -/
def decDigitsCore : Nat → Nat → List Nat
  | 0, _ => []
  | fuel + 1, n => if n < 10 then [n] else n % 10 :: decDigitsCore fuel (n / 10)

/-- Decode a little-endian decimal digit list back into a number. -/
def undigits : List Nat → Nat
  | [] => 0
  | d :: rest => d + 10 * undigits rest

/-- Model of the ECMAScript number-to-string conversion `String(i)` for a
non-negative integer: its decimal digit string. -/
def natToString (n : Nat) : String :=
  String.mk (((decDigitsCore (n + 1) n).reverse).map Nat.digitChar)

/-- Object-spread `{...v}` of an arbitrary JSON value: an object spreads its
fields, an array or a string spreads to index-keyed fields, and primitives
spread to nothing. -/
def indexedFieldsFrom (i : Nat) : List JsonValue → List (String × JsonValue)
  | [] => []
  | v :: rest => (natToString i, v) :: indexedFieldsFrom (i + 1) rest

/-- Fields contributed by `{...v}` for each shape of `v`. -/
def spreadFields : JsonValue → List (String × JsonValue)
  | JsonValue.obj fs => fs
  | JsonValue.arr xs => indexedFieldsFrom 0 xs
  | JsonValue.str s => indexedFieldsFrom 0 (s.data.map (fun c => JsonValue.str (String.mk [c])))
  | _ => []

/-- Errors raised by the record loader (spec taxonomy: `NotFound`,
`ShapeError`; `parseFailure` models a `JSON.parse` SyntaxError, which the
spec taxonomy does not name). -/
inductive LoadError where
  | notFound (file : String)
  | parseFailure (raw : String)
  | shapeError

/-- Body of `arr.map((item, idx) => { const classcode = 18 + Math.floor(idx / 20);
return { ...item, classcode }; })`, recursing with the running index. -/
def addClasscodesFrom (idx : Nat) : List JsonValue → List Record
  | [] => []
  | item :: rest =>
      setField (spreadFields item) "classcode" (JsonValue.num (Int.ofNat (18 + idx / 20)))
        :: addClasscodesFrom (idx + 1) rest

/-- The whole `arr.map((item, idx) => ...)` call, starting at index 0. -/
def addClasscodes (xs : List JsonValue) : List Record :=
  addClasscodesFrom 0 xs

/-- Path chosen by `readDataWithClasscodes`: the explicit argument when given,
else the fixed `data2.json` next to the script. -/
def resolveDataPath (dataPath : Option String) : String :=
  match dataPath with
  | some p => p
  | none => "data2.json"

/-- The record loader `readDataWithClasscodes` from `app.js`: check the file
exists, read it, `JSON.parse` it, demand an array, and append `classcode` to
every element.  `fsys` models `fs` (`none` = file absent) and `parse` models
`JSON.parse` (`none` = SyntaxError thrown). -/
def readDataWithClasscodes (fsys : String → Option String)
    (parse : String → Option JsonValue) (dataPath : Option String) :
    Except LoadError (List Record) :=
  let file := resolveDataPath dataPath
  match fsys file with
  | none => Except.error (LoadError.notFound file)
  | some raw =>
    match parse raw with
    | none => Except.error (LoadError.parseFailure raw)
    | some v =>
      match v with
      | JsonValue.arr xs => Except.ok (addClasscodes xs)
      | _ => Except.error LoadError.shapeError

/-- The exceljs in-memory view of one worksheet, restricted to what the
program observes: the sheet name, the cell-value store, and the merged-range
structure as the map sending every cell address to the master (top-left)
address of the merged range containing it — the address itself when the cell
is unmerged or is the master. -/
structure Worksheet where
  name : String
  masterOf : String → String
  values : String → JsonValue

/-- A worksheet is well formed when master resolution is idempotent, which
holds for every sheet exceljs builds: the master of a merged range is the
range's top-left cell, whose own master is itself. -/
def Worksheet.WF (s : Worksheet) : Prop :=
  ∀ a, s.masterOf (s.masterOf a) = s.masterOf a

/-- Primitive exceljs cell-value assignment `sheet.getCell(a).value = v`.  A
merged member cell's value setter delegates to the master cell of its range
(spec section 4.2: "set value" is defined as "set the value of the master
cell containing this address"), so the write lands at `masterOf a`. -/
def cellSetValue (s : Worksheet) (a : String) (v : JsonValue) : Worksheet :=
  { s with values := fun b => if b = s.masterOf a then v else s.values b }

/-- Reading `sheet.getCell(a).value`: a merged member cell reports the value
held by its master cell. -/
def getCellValue (s : Worksheet) (a : String) : JsonValue :=
  s.values (s.masterOf a)

/-- The helper from `app.js`:
`const cell = sheet.getCell(address); const target = cell.master || cell;
target.value = value;` — resolve the address to its merge master once and
assign through the primitive setter. -/
def setCellValueKeepingMerge (s : Worksheet) (address : String) (value : JsonValue) : Worksheet :=
  cellSetValue s (s.masterOf address) value

/-- The cell-copy loop of the Sheet Cloner (`row.eachCell` body): for each
source address, skip it unless the source cell is its own merge master
(`sourceMaster.address !== cell.address`), otherwise write its value to the
same address of the destination sheet. -/
def copyMasterCells (src dst : Worksheet) (addrs : List String) : Worksheet :=
  addrs.foldl
    (fun d a => if src.masterOf a = a then cellSetValue d a (src.values a) else d) dst

/-- Model of `path.join(a, b)`. -/
def joinPath (a b : String) : String := a ++ "/" ++ b

/-- Current `fillDataToTemplate` (first copy in `app.js`): write the six
record fields into C1..C6 of the already-located worksheet `data` through
`setCellValueKeepingMerge`, and return the saved sheet with the output path
`<rootDir>/out/<outFilename>`.  The existence guards for the template file
and the `data` sheet precede this core and are identical in both variants. -/
def fillDataToTemplate (rootDir : String) (sheet : Worksheet) (entry : Record)
    (outFilename : String) : Worksheet × String :=
  let s1 := setCellValueKeepingMerge sheet "C1" (nullish (getField entry "name") (JsonValue.str ""))
  let s2 := setCellValueKeepingMerge s1 "C2" (nullish (getField entry "year") (JsonValue.str ""))
  let s3 := setCellValueKeepingMerge s2 "C3" (nullish (getField entry "school") (JsonValue.str ""))
  let s4 := setCellValueKeepingMerge s3 "C4" (nullish (getField entry "address") (JsonValue.str ""))
  let s5 := setCellValueKeepingMerge s4 "C5" (nullish (getField entry "address2") (JsonValue.str ""))
  let s6 := setCellValueKeepingMerge s5 "C6" (nullish (getField entry "classcode") (JsonValue.str ""))
  (s6, joinPath (joinPath rootDir "out") outFilename)

/-- The duplicate earlier `fillDataToTemplate` (second copy in `app.js`):
identical except that it assigns `sheet.getCell(addr).value = v` directly,
without the explicit master resolution of `setCellValueKeepingMerge`. -/
def fillDataToTemplateEarlier (rootDir : String) (sheet : Worksheet) (entry : Record)
    (outFilename : String) : Worksheet × String :=
  let s1 := cellSetValue sheet "C1" (nullish (getField entry "name") (JsonValue.str ""))
  let s2 := cellSetValue s1 "C2" (nullish (getField entry "year") (JsonValue.str ""))
  let s3 := cellSetValue s2 "C3" (nullish (getField entry "school") (JsonValue.str ""))
  let s4 := cellSetValue s3 "C4" (nullish (getField entry "address") (JsonValue.str ""))
  let s5 := cellSetValue s4 "C5" (nullish (getField entry "address2") (JsonValue.str ""))
  let s6 := cellSetValue s5 "C6" (nullish (getField entry "classcode") (JsonValue.str ""))
  (s6, joinPath (joinPath rootDir "out") outFilename)

/-- Sheet name computed by the cloner for record index `i`:
`"STT-" + String(i)`. -/
def sttName (i : Nat) : String := "STT-" ++ natToString i

/-- One step of the merge-application loop of the Sheet Cloner: an entry that
is not a string containing a colon is skipped, and a `mergeCells` call that
throws (`mc s r = none`) is caught and ignored, leaving the sheet unchanged.
`mc` models `newSheet.mergeCells`. -/
def applyOneMerge (mc : Worksheet → String → Option Worksheet) (s : Worksheet)
    (r : JsonValue) : Worksheet :=
  match r with
  | JsonValue.str rs =>
      if rs.contains ':' then
        match mc s rs with
        | some t => t
        | none => s
      else s
  | _ => s

/-- The merge-application loop
`for (const range of mergeRanges) { ... try { newSheet.mergeCells(range) } catch (e) {} }`. -/
def applyMergeRanges (mc : Worksheet → String → Option Worksheet) (s : Worksheet)
    (ranges : List JsonValue) : Worksheet :=
  ranges.foldl (applyOneMerge mc) s

/-- Net effect of one iteration body of the cloner on the new sheet: the new
sheet carries the form sheet's model (values and merged-range structure are
deep-copied via `newSheet.model = JSON.parse(JSON.stringify(formSheet.model))`,
the master-cell copy loop then rewrites the same values, and re-applying the
already-present merge ranges is idempotent), renamed to `STT-i`; then the six
record-specific cells are written through `setCellValueKeepingMerge`.  A null
or undefined array element is replaced by the empty object
(`dataArray[i] || {}`). -/
def cloneSheetForItem (formSheet : Worksheet) (i : Nat) (itemOpt : Option Record) : Worksheet :=
  let item := itemOpt.getD []
  let base : Worksheet :=
    { name := sttName i, masterOf := formSheet.masterOf, values := formSheet.values }
  let s1 := setCellValueKeepingMerge base "C6" (nullish (getField item "name") (JsonValue.str ""))
  let s2 := setCellValueKeepingMerge s1 "C7"
    (nullish (getField item "year") (nullish (getField item "name2") (JsonValue.str "")))
  let s3 := setCellValueKeepingMerge s2 "C8" (nullish (getField item "school") (JsonValue.str ""))
  let s4 := setCellValueKeepingMerge s3 "C9" (nullish (getField item "address") (JsonValue.str ""))
  let s5 := setCellValueKeepingMerge s4 "C10" (nullish (getField item "address2") (JsonValue.str ""))
  setCellValueKeepingMerge s5 "F6" (JsonValue.str "Mã lớp: 18")

/-- `const existing = workbook.getWorksheet(sheetName);
if (existing) workbook.removeWorksheet(existing.id);` — remove the first
sheet carrying the name, or nothing when no sheet does. -/
def removeSheetNamed (wb : List Worksheet) (n : String) : List Worksheet :=
  match wb with
  | [] => []
  | s :: rest => if s.name = n then rest else s :: removeSheetNamed rest n

/-- One iteration of the cloner's `for` loop over the workbook sheet list:
remove any existing sheet named `STT-i`, then `addWorksheet` appends the new
clone at the end. -/
def processItem (formSheet : Worksheet) (wb : List Worksheet) (i : Nat)
    (itemOpt : Option Record) : List Worksheet :=
  removeSheetNamed wb (sttName i) ++ [cloneSheetForItem formSheet i itemOpt]

/-- The cloner's `for (let i = 0; i < dataArray.length; i++)` loop, with `i0`
the index of the first remaining item. -/
def cloneLoop (formSheet : Worksheet) (wb : List Worksheet)
    (items : List (Option Record)) (i0 : Nat) : List Worksheet :=
  match items with
  | [] => wb
  | item :: rest => cloneLoop formSheet (processItem formSheet wb i0 item) rest (i0 + 1)

/-- `createCopiesFromTemplateAll` restricted to its workbook effect: run the
per-record clone loop from index 0 over the workbook's sheet list.  The
template/out-dir existence guards precede this and array elements may be
null/undefined (`none`). -/
def createCopiesFromTemplateAll (formSheet : Worksheet) (wb : List Worksheet)
    (items : List (Option Record)) : List Worksheet :=
  cloneLoop formSheet wb items 0

/-- Sheets of `wb` carrying the name `n`. -/
def filterName (wb : List Worksheet) (n : String) : List Worksheet :=
  wb.filter (fun s => s.name == n)

/-- How many sheets of `wb` carry the name `n`. -/
def countName (wb : List Worksheet) (n : String) : Nat :=
  (filterName wb n).length

/-- `workbook.getWorksheet(n)`: the first sheet named `n`. -/
def getWorksheet (wb : List Worksheet) (n : String) : Option Worksheet :=
  wb.find? (fun s => s.name == n)

/-- Read a cell of an optionally-found worksheet. -/
def cellOfSheet (o : Option Worksheet) (a : String) : Option JsonValue :=
  o.map (fun ws => getCellValue ws a)

/-- Boolean test that `a` occurs nowhere in `l`. -/
def notMem (a : String) : List String → Bool
  | [] => true
  | b :: rest => (!(a == b)) && notMem a rest

/-- Boolean pairwise-distinctness of a list of addresses. -/
def allDistinct : List String → Bool
  | [] => true
  | a :: rest => notMem a rest && allDistinct rest

/-- A sequence of `setCellValueKeepingMerge` writes, used to reason uniformly
about the write chains of `fillDataToTemplate` and the cloner (which are
definitionally such folds over their literal write lists). -/
def writeCells (s : Worksheet) (ws : List (String × JsonValue)) : Worksheet :=
  ws.foldl (fun t p => setCellValueKeepingMerge t p.1 p.2) s

/-- A worksheet with no merged ranges and empty cells, standing in for a
trivial template sheet in concrete runs. -/
def idSheet : Worksheet :=
  { name := "form", masterOf := fun a => a, values := fun _ => JsonValue.null }

/-- A worksheet where B1:C1 is merged with master B1, to exercise merge
resolution in concrete runs. -/
def mergedSheet : Worksheet :=
  { name := "data"
    masterOf := fun a => if a = "C1" ∨ a = "B1" then "B1" else a
    values := fun _ => JsonValue.null }

/-- A `mergeCells` stub that always throws, for exercising the cloner's
per-range error recovery on a concrete run. -/
def mcFail : Worksheet → String → Option Worksheet := fun _ _ => none

/-- Concrete filesystem with the default data file present. -/
def demoFsys : String → Option String :=
  fun p => if p = "data2.json" then some "DATA" else none

/-- Concrete `JSON.parse` turning the demo file into the spec's two-record
scenario `[{ "name": "A" }, { "name": "B" }]`. -/
def demoParse : String → Option JsonValue :=
  fun r =>
    if r = "DATA" then
      some (JsonValue.arr
        [JsonValue.obj [("name", JsonValue.str "A")],
         JsonValue.obj [("name", JsonValue.str "B")]])
    else none

/-- Concrete filesystem with no files, for the `NotFound` case. -/
def emptyFsys : String → Option String := fun _ => none

/-- Concrete `JSON.parse` turning the demo file into a JSON object (not an
array), for the `ShapeError` case. -/
def objParse : String → Option JsonValue :=
  fun r => if r = "DATA" then some (JsonValue.obj []) else none

/-- A sequence of raw cell-value assignments (`sheet.getCell(a).value = v`),
the write pattern of the earlier `fillDataToTemplate` variant. -/
def writeCellsRaw (s : Worksheet) (ws : List (String × JsonValue)) : Worksheet :=
  ws.foldl (fun t p => cellSetValue t p.1 p.2) s

/-- The spec's concrete two-record scenario `[{ "name": "A" }, { "name": "B" }]`
as cloner input. -/
def demoItems : List (Option Record) :=
  [some [("name", JsonValue.str "A")], some [("name", JsonValue.str "B")]]

/-- A one-element cloner input whose only record is null/undefined. -/
def demoItemsNull : List (Option Record) := [none]

/-! ### Decimal stringification: round trip and injectivity -/

theorem undigits_decDigitsCore : ∀ (fuel n : Nat), n < fuel →
    undigits (decDigitsCore fuel n) = n := by
  intro fuel
  induction fuel with
  | zero => intro n h; omega
  | succ f ih =>
    intro n h
    by_cases h10 : n < 10
    · simp [decDigitsCore, h10, undigits]
    · have hlt : n / 10 < f := by
        have : n / 10 < n := Nat.div_lt_self (by omega) (by omega)
        omega
      simp only [decDigitsCore, if_neg h10, undigits, ih _ hlt]
      omega

theorem decDigitsCore_lt_ten : ∀ (fuel n : Nat), ∀ d ∈ decDigitsCore fuel n, d < 10 := by
  intro fuel
  induction fuel with
  | zero => intro n d hd; simp [decDigitsCore] at hd
  | succ f ih =>
    intro n d hd
    by_cases h10 : n < 10
    · simp [decDigitsCore, h10] at hd; omega
    · simp only [decDigitsCore, if_neg h10, List.mem_cons] at hd
      rcases hd with h | h
      · omega
      · exact ih _ d h

theorem digitChar_inj_lt : ∀ a : Nat, a < 10 → ∀ b : Nat, b < 10 →
    Nat.digitChar a = Nat.digitChar b → a = b := by decide

theorem map_digitChar_inj : ∀ (l1 l2 : List Nat), (∀ d ∈ l1, d < 10) → (∀ d ∈ l2, d < 10) →
    l1.map Nat.digitChar = l2.map Nat.digitChar → l1 = l2 := by
  intro l1
  induction l1 with
  | nil => intro l2 _ _ h; cases l2 <;> simp_all
  | cons a t ih =>
    intro l2 h1 h2 h
    cases l2 with
    | nil => simp_all
    | cons b t2 =>
      simp only [List.map_cons, List.cons.injEq] at h
      have ha : a = b := digitChar_inj_lt a (h1 a (by simp)) b (h2 b (by simp)) h.1
      have ht := ih t2 (fun d hd => h1 d (by simp [hd])) (fun d hd => h2 d (by simp [hd])) h.2
      simp [ha, ht]

theorem natToString_inj : ∀ (m n : Nat), natToString m = natToString n → m = n := by
  intro m n h
  have hdata : ((decDigitsCore (m + 1) m).reverse).map Nat.digitChar
      = ((decDigitsCore (n + 1) n).reverse).map Nat.digitChar := congrArg String.data h
  have hrev := map_digitChar_inj _ _
    (fun d hd => decDigitsCore_lt_ten _ _ d (List.mem_reverse.mp hd))
    (fun d hd => decDigitsCore_lt_ten _ _ d (List.mem_reverse.mp hd)) hdata
  have hlists : decDigitsCore (m + 1) m = decDigitsCore (n + 1) n := by
    have := congrArg List.reverse hrev
    simpa using this
  have h1 := undigits_decDigitsCore (m + 1) m (by omega)
  have h2 := undigits_decDigitsCore (n + 1) n (by omega)
  rw [hlists] at h1
  omega

theorem sttName_inj : ∀ (m n : Nat), sttName m = sttName n → m = n := by
  intro m n h
  apply natToString_inj
  have hd : ("STT-".data ++ (natToString m).data)
      = ("STT-".data ++ (natToString n).data) := congrArg String.data h
  have := List.append_cancel_left hd
  exact congrArg String.mk this

/-! ### Record field lookup and update -/

theorem getField_setField_self (r : Record) (k : String) (v : JsonValue) :
    getField (setField r k v) k = some v := by
  induction r with
  | nil => simp [setField, getField, List.find?]
  | cons p rest ih =>
    by_cases hp : p.1 = k
    · simp [setField, hp, getField, List.find?]
    · simp only [setField, if_neg hp, getField] at ih ⊢
      rw [List.find?_cons_of_neg]
      · exact ih
      · simp [hp]

theorem getField_setField_ne (r : Record) (k k2 : String) (v : JsonValue) (hne : k2 ≠ k) :
    getField (setField r k v) k2 = getField r k2 := by
  have hkn : k ≠ k2 := fun h => hne h.symm
  induction r with
  | nil => simp [setField, getField, hkn]
  | cons p rest ih =>
    by_cases hp : p.1 = k
    · simp [setField, getField, hp, hkn]
    · by_cases hp2 : p.1 = k2
      · simp [setField, getField, hp, hp2, hne]
      · simpa [setField, getField, hp, hp2] using ih

/-! ### Worksheet write/read lemmas -/

theorem setKeep_masterOf (s : Worksheet) (a : String) (v : JsonValue) :
    (setCellValueKeepingMerge s a v).masterOf = s.masterOf := rfl

theorem setKeep_name (s : Worksheet) (a : String) (v : JsonValue) :
    (setCellValueKeepingMerge s a v).name = s.name := rfl

theorem setKeep_WF (s : Worksheet) (a : String) (v : JsonValue) (h : s.WF) :
    (setCellValueKeepingMerge s a v).WF := h

theorem values_setKeep (s : Worksheet) (a : String) (v : JsonValue) (hwf : s.WF) (b : String) :
    (setCellValueKeepingMerge s a v).values b = if b = s.masterOf a then v else s.values b := by
  simp [setCellValueKeepingMerge, cellSetValue, hwf a]

theorem getCellValue_setKeep_eq (s : Worksheet) (a : String) (v : JsonValue) (hwf : s.WF) :
    getCellValue (setCellValueKeepingMerge s a v) a = v := by
  have h := values_setKeep s a v hwf (s.masterOf a)
  simpa [getCellValue] using h

theorem getCellValue_setKeep_ne (s : Worksheet) (a b : String) (v : JsonValue) (hwf : s.WF)
    (h : s.masterOf b ≠ s.masterOf a) :
    getCellValue (setCellValueKeepingMerge s a v) b = getCellValue s b := by
  have hv := values_setKeep s a v hwf (s.masterOf b)
  simpa [getCellValue, h] using hv

theorem setKeep_eq_cellSet (s : Worksheet) (a : String) (v : JsonValue) (hwf : s.WF) :
    setCellValueKeepingMerge s a v = cellSetValue s a v := by
  simp only [setCellValueKeepingMerge, cellSetValue, hwf a]

/-! ### Distinctness extraction -/

theorem notMem_spec : ∀ (l : List String) (a : String), notMem a l = true →
    ∀ b ∈ l, a ≠ b := by
  intro l
  induction l with
  | nil => intro a _ b hb; simp at hb
  | cons c rest ih =>
    intro a h b hb
    simp only [notMem, Bool.and_eq_true, Bool.not_eq_true', beq_eq_false_iff_ne] at h
    rcases List.mem_cons.mp hb with rfl | hbr
    · exact h.1
    · exact ih a h.2 b hbr

theorem allDistinct_head (a : String) (l : List String) (h : allDistinct (a :: l) = true) :
    (∀ b ∈ l, a ≠ b) ∧ allDistinct l = true := by
  simp only [allDistinct, Bool.and_eq_true] at h
  exact ⟨notMem_spec l a h.1, h.2⟩

/-! ### Loader index lemmas -/

theorem addClasscodesFrom_length : ∀ (xs : List JsonValue) (i0 : Nat),
    (addClasscodesFrom i0 xs).length = xs.length := by
  intro xs
  induction xs with
  | nil => intro i0; rfl
  | cons x t ih => intro i0; simp [addClasscodesFrom, ih]

theorem addClasscodesFrom_get : ∀ (xs : List JsonValue) (i0 k : Nat) (hk : k < xs.length)
    (hk2 : k < (addClasscodesFrom i0 xs).length),
    (addClasscodesFrom i0 xs).get ⟨k, hk2⟩
      = setField (spreadFields (xs.get ⟨k, hk⟩)) "classcode"
          (JsonValue.num (Int.ofNat (18 + (i0 + k) / 20))) := by
  intro xs
  induction xs with
  | nil => intro i0 k hk hk2; simp at hk
  | cons x t ih =>
    intro i0 k hk hk2
    cases k with
    | zero => simp [addClasscodesFrom]
    | succ k =>
      have hkt : k < t.length := by simpa using hk
      have hkt2 : k < (addClasscodesFrom (i0 + 1) t).length := by
        rw [addClasscodesFrom_length]; exact hkt
      have := ih (i0 + 1) k hkt hkt2
      simp only [addClasscodesFrom, List.get_cons_succ]
      rw [this]
      have harith : i0 + 1 + k = i0 + (k + 1) := by omega
      rw [harith]

/-! ### Workbook sheet-list lemmas -/

theorem cloneSheetForItem_name (f : Worksheet) (i : Nat) (it : Option Record) :
    (cloneSheetForItem f i it).name = sttName i := rfl

theorem cloneSheetForItem_masterOf (f : Worksheet) (i : Nat) (it : Option Record) :
    (cloneSheetForItem f i it).masterOf = f.masterOf := rfl

theorem filterName_nil (n : String) : filterName [] n = [] := rfl

theorem filterName_cons (s : Worksheet) (wb : List Worksheet) (n : String) :
    filterName (s :: wb) n
      = if s.name = n then s :: filterName wb n else filterName wb n := by
  by_cases h : s.name = n
  · simp [filterName, List.filter_cons, h]
  · simp [filterName, List.filter_cons, h]

theorem filterName_append (wb1 wb2 : List Worksheet) (n : String) :
    filterName (wb1 ++ wb2) n = filterName wb1 n ++ filterName wb2 n := by
  simp [filterName, List.filter_append]

theorem filterName_removeSheetNamed_self : ∀ (wb : List Worksheet) (n : String),
    countName wb n ≤ 1 → filterName (removeSheetNamed wb n) n = [] := by
  intro wb
  induction wb with
  | nil => intro n _; rfl
  | cons s rest ih =>
    intro n h
    by_cases hs : s.name = n
    · simp only [removeSheetNamed, if_pos hs]
      have hc : countName rest n = 0 := by
        simp only [countName, filterName_cons, if_pos hs] at h
        simp only [List.length_cons] at h
        simp only [countName]
        omega
      simpa [countName, List.length_eq_zero] using hc
    · simp only [removeSheetNamed, if_neg hs, filterName_cons, if_neg hs]
      apply ih
      simpa [countName, filterName_cons, if_neg hs] using h

theorem filterName_removeSheetNamed_ne : ∀ (wb : List Worksheet) (n m : String), m ≠ n →
    filterName (removeSheetNamed wb n) m = filterName wb m := by
  intro wb
  induction wb with
  | nil => intro n m _; rfl
  | cons s rest ih =>
    intro n m hmn
    by_cases hs : s.name = n
    · simp only [removeSheetNamed, if_pos hs, filterName_cons]
      have : ¬(s.name = m) := by rw [hs]; exact fun h => hmn h.symm
      simp [this]
    · simp only [removeSheetNamed, if_neg hs]
      by_cases hm : s.name = m
      · rw [filterName_cons, if_pos hm, filterName_cons, if_pos hm, ih n m hmn]
      · rw [filterName_cons, if_neg hm, filterName_cons, if_neg hm]
        exact ih n m hmn

theorem filterName_processItem_self (f : Worksheet) (wb : List Worksheet) (i : Nat)
    (it : Option Record) (h : countName wb (sttName i) ≤ 1) :
    filterName (processItem f wb i it) (sttName i) = [cloneSheetForItem f i it] := by
  simp only [processItem, filterName_append, filterName_removeSheetNamed_self wb (sttName i) h]
  simp [filterName_cons, cloneSheetForItem_name, filterName_nil]

theorem filterName_processItem_ne (f : Worksheet) (wb : List Worksheet) (i : Nat)
    (it : Option Record) (m : String) (hm : m ≠ sttName i) :
    filterName (processItem f wb i it) m = filterName wb m := by
  simp only [processItem, filterName_append,
    filterName_removeSheetNamed_ne wb (sttName i) m hm]
  have : ¬((cloneSheetForItem f i it).name = m) := by
    rw [cloneSheetForItem_name]
    exact fun h => hm h.symm
  simp [filterName_cons, this, filterName_nil]

theorem countName_processItem_le (f : Worksheet) (wb : List Worksheet) (i : Nat)
    (it : Option Record) (h : ∀ n, countName wb n ≤ 1) :
    ∀ n, countName (processItem f wb i it) n ≤ 1 := by
  intro n
  by_cases hn : n = sttName i
  · rw [hn]
    rw [countName, filterName_processItem_self f wb i it (h (sttName i))]
    simp
  · rw [countName, filterName_processItem_ne f wb i it n hn]
    exact h n

theorem cloneLoop_filterName_out : ∀ (items : List (Option Record)) (f : Worksheet)
    (wb : List Worksheet) (i0 : Nat) (m : String),
    (∀ k, k < items.length → m ≠ sttName (i0 + k)) →
    filterName (cloneLoop f wb items i0) m = filterName wb m := by
  intro items
  induction items with
  | nil => intro f wb i0 m _; rfl
  | cons item rest ih =>
    intro f wb i0 m hm
    have h0 : m ≠ sttName i0 := by
      have := hm 0 (by simp)
      simpa using this
    simp only [cloneLoop]
    rw [ih f (processItem f wb i0 item) (i0 + 1) m
      (fun k hk => by
        have := hm (k + 1) (by simpa using Nat.succ_lt_succ hk)
        have harith : i0 + (k + 1) = i0 + 1 + k := by omega
        rw [harith] at this
        exact this)]
    exact filterName_processItem_ne f wb i0 item m h0

theorem cloneLoop_count_le : ∀ (items : List (Option Record)) (f : Worksheet)
    (wb : List Worksheet) (i0 : Nat), (∀ n, countName wb n ≤ 1) →
    ∀ n, countName (cloneLoop f wb items i0) n ≤ 1 := by
  intro items
  induction items with
  | nil => intro f wb i0 h n; exact h n
  | cons item rest ih =>
    intro f wb i0 h n
    simp only [cloneLoop]
    exact ih f (processItem f wb i0 item) (i0 + 1)
      (countName_processItem_le f wb i0 item h) n

theorem cloneLoop_filterName_stt : ∀ (items : List (Option Record)) (f : Worksheet)
    (wb : List Worksheet) (i0 k : Nat) (hk : k < items.length),
    (∀ n, countName wb n ≤ 1) →
    filterName (cloneLoop f wb items i0) (sttName (i0 + k))
      = [cloneSheetForItem f (i0 + k) (items.get ⟨k, hk⟩)] := by
  intro items
  induction items with
  | nil => intro f wb i0 k hk _; simp at hk
  | cons item rest ih =>
    intro f wb i0 k hk h
    cases k with
    | zero =>
      simp only [cloneLoop, Nat.add_zero, List.get]
      rw [cloneLoop_filterName_out rest f (processItem f wb i0 item) (i0 + 1) (sttName i0)
        (fun k2 _ => fun he => by
          have := sttName_inj _ _ he
          omega)]
      exact filterName_processItem_self f wb i0 item (h (sttName i0))
    | succ k =>
      have hkr : k < rest.length := by simpa using hk
      simp only [cloneLoop, List.get_cons_succ]
      have harith : i0 + (k + 1) = i0 + 1 + k := by omega
      rw [harith]
      exact ih f (processItem f wb i0 item) (i0 + 1) k hkr
        (countName_processItem_le f wb i0 item h)

theorem getWorksheet_of_filterName_singleton : ∀ (wb : List Worksheet) (n : String)
    (ws : Worksheet), filterName wb n = [ws] → getWorksheet wb n = some ws := by
  intro wb
  induction wb with
  | nil => intro n ws h; simp [filterName] at h
  | cons s rest ih =>
    intro n ws h
    by_cases hs : s.name = n
    · rw [filterName_cons, if_pos hs] at h
      have hsw : s = ws := ((List.cons.injEq _ _ _ _).mp h).1
      simp only [getWorksheet, List.find?]
      rw [show (s.name == n) = true from beq_iff_eq.mpr hs]
      rw [hsw]
    · rw [filterName_cons, if_neg hs] at h
      simp only [getWorksheet, List.find?] at ih ⊢
      rw [show (s.name == n) = false from by simp [hs]]
      exact ih n ws h

/-! ### Write-chain lemmas -/

theorem writeCells_masterOf : ∀ (ws : List (String × JsonValue)) (s : Worksheet),
    (writeCells s ws).masterOf = s.masterOf := by
  intro ws
  induction ws with
  | nil => intro s; rfl
  | cons p rest ih =>
    intro s
    simp only [writeCells, List.foldl_cons]
    exact ih (setCellValueKeepingMerge s p.1 p.2)

theorem writeCells_name : ∀ (ws : List (String × JsonValue)) (s : Worksheet),
    (writeCells s ws).name = s.name := by
  intro ws
  induction ws with
  | nil => intro s; rfl
  | cons p rest ih =>
    intro s
    simp only [writeCells, List.foldl_cons]
    exact ih (setCellValueKeepingMerge s p.1 p.2)

theorem WF_of_masterOf_eq (s t : Worksheet) (h : t.masterOf = s.masterOf) (hs : s.WF) :
    t.WF := by
  intro a
  rw [h]
  exact hs a

theorem writeCells_WF (ws : List (String × JsonValue)) (s : Worksheet) (hs : s.WF) :
    (writeCells s ws).WF :=
  WF_of_masterOf_eq s (writeCells s ws) (writeCells_masterOf ws s) hs

theorem getCellValue_writeCells_ne : ∀ (ws : List (String × JsonValue)) (s : Worksheet)
    (b : String), s.WF → (∀ p ∈ ws, s.masterOf b ≠ s.masterOf p.1) →
    getCellValue (writeCells s ws) b = getCellValue s b := by
  intro ws
  induction ws with
  | nil => intro s b _ _; rfl
  | cons p rest ih =>
    intro s b hwf h
    simp only [writeCells, List.foldl_cons]
    have step := getCellValue_setKeep_ne s p.1 b p.2 hwf (h p (List.mem_cons_self p rest))
    have tail := ih (setCellValueKeepingMerge s p.1 p.2) b (setKeep_WF s p.1 p.2 hwf)
      (fun q hq => h q (List.mem_cons_of_mem p hq))
    exact tail.trans step

theorem values_writeCells_ne : ∀ (ws : List (String × JsonValue)) (s : Worksheet)
    (b : String), s.WF → (∀ p ∈ ws, b ≠ s.masterOf p.1) →
    (writeCells s ws).values b = s.values b := by
  intro ws
  induction ws with
  | nil => intro s b _ _; rfl
  | cons p rest ih =>
    intro s b hwf h
    simp only [writeCells, List.foldl_cons]
    have step : (setCellValueKeepingMerge s p.1 p.2).values b = s.values b := by
      rw [values_setKeep s p.1 p.2 hwf b, if_neg (h p (List.mem_cons_self p rest))]
    have tail := ih (setCellValueKeepingMerge s p.1 p.2) b (setKeep_WF s p.1 p.2 hwf)
      (fun q hq => h q (List.mem_cons_of_mem p hq))
    exact tail.trans step

theorem writeCells6 (s : Worksheet) (a1 a2 a3 a4 a5 a6 : String)
    (v1 v2 v3 v4 v5 v6 : JsonValue) (hwf : s.WF)
    (hd : allDistinct [s.masterOf a1, s.masterOf a2, s.masterOf a3, s.masterOf a4,
      s.masterOf a5, s.masterOf a6] = true) :
    getCellValue (writeCells s [(a1, v1), (a2, v2), (a3, v3), (a4, v4), (a5, v5), (a6, v6)]) a1 = v1
    ∧ getCellValue (writeCells s [(a1, v1), (a2, v2), (a3, v3), (a4, v4), (a5, v5), (a6, v6)]) a2 = v2
    ∧ getCellValue (writeCells s [(a1, v1), (a2, v2), (a3, v3), (a4, v4), (a5, v5), (a6, v6)]) a3 = v3
    ∧ getCellValue (writeCells s [(a1, v1), (a2, v2), (a3, v3), (a4, v4), (a5, v5), (a6, v6)]) a4 = v4
    ∧ getCellValue (writeCells s [(a1, v1), (a2, v2), (a3, v3), (a4, v4), (a5, v5), (a6, v6)]) a5 = v5
    ∧ getCellValue (writeCells s [(a1, v1), (a2, v2), (a3, v3), (a4, v4), (a5, v5), (a6, v6)]) a6 = v6
    := by
  obtain ⟨h1, hd⟩ := allDistinct_head _ _ hd
  obtain ⟨h2, hd⟩ := allDistinct_head _ _ hd
  obtain ⟨h3, hd⟩ := allDistinct_head _ _ hd
  obtain ⟨h4, hd⟩ := allDistinct_head _ _ hd
  obtain ⟨h5, _⟩ := allDistinct_head _ _ hd
  have w1 := setKeep_WF s a1 v1 hwf
  have w2 := setKeep_WF _ a2 v2 w1
  have w3 := setKeep_WF _ a3 v3 w2
  have w4 := setKeep_WF _ a4 v4 w3
  have w5 := setKeep_WF _ a5 v5 w4
  refine ⟨?_, ?_, ?_, ?_, ?_, ?_⟩
  · have hne := getCellValue_writeCells_ne
      [(a2, v2), (a3, v3), (a4, v4), (a5, v5), (a6, v6)]
      (setCellValueKeepingMerge s a1 v1) a1 w1
      (fun p hp => by
        simp only [List.mem_cons, List.not_mem_nil, or_false] at hp
        rcases hp with rfl | rfl | rfl | rfl | rfl
        · exact h1 _ (by simp [setKeep_masterOf])
        · exact h1 _ (by simp [setKeep_masterOf])
        · exact h1 _ (by simp [setKeep_masterOf])
        · exact h1 _ (by simp [setKeep_masterOf])
        · exact h1 _ (by simp [setKeep_masterOf]))
    exact hne.trans (getCellValue_setKeep_eq s a1 v1 hwf)
  · have hne := getCellValue_writeCells_ne
      [(a3, v3), (a4, v4), (a5, v5), (a6, v6)]
      (setCellValueKeepingMerge (setCellValueKeepingMerge s a1 v1) a2 v2) a2 w2
      (fun p hp => by
        simp only [List.mem_cons, List.not_mem_nil, or_false] at hp
        rcases hp with rfl | rfl | rfl | rfl
        · exact h2 _ (by simp [setKeep_masterOf])
        · exact h2 _ (by simp [setKeep_masterOf])
        · exact h2 _ (by simp [setKeep_masterOf])
        · exact h2 _ (by simp [setKeep_masterOf]))
    exact hne.trans (getCellValue_setKeep_eq _ a2 v2 w1)
  · have hne := getCellValue_writeCells_ne
      [(a4, v4), (a5, v5), (a6, v6)]
      (setCellValueKeepingMerge (setCellValueKeepingMerge
        (setCellValueKeepingMerge s a1 v1) a2 v2) a3 v3) a3 w3
      (fun p hp => by
        simp only [List.mem_cons, List.not_mem_nil, or_false] at hp
        rcases hp with rfl | rfl | rfl
        · exact h3 _ (by simp [setKeep_masterOf])
        · exact h3 _ (by simp [setKeep_masterOf])
        · exact h3 _ (by simp [setKeep_masterOf]))
    exact hne.trans (getCellValue_setKeep_eq _ a3 v3 w2)
  · have hne := getCellValue_writeCells_ne
      [(a5, v5), (a6, v6)]
      (setCellValueKeepingMerge (setCellValueKeepingMerge (setCellValueKeepingMerge
        (setCellValueKeepingMerge s a1 v1) a2 v2) a3 v3) a4 v4) a4 w4
      (fun p hp => by
        simp only [List.mem_cons, List.not_mem_nil, or_false] at hp
        rcases hp with rfl | rfl
        · exact h4 _ (by simp [setKeep_masterOf])
        · exact h4 _ (by simp [setKeep_masterOf]))
    exact hne.trans (getCellValue_setKeep_eq _ a4 v4 w3)
  · have hne := getCellValue_writeCells_ne
      [(a6, v6)]
      (setCellValueKeepingMerge (setCellValueKeepingMerge (setCellValueKeepingMerge
        (setCellValueKeepingMerge (setCellValueKeepingMerge s a1 v1) a2 v2) a3 v3)
        a4 v4) a5 v5) a5 w5
      (fun p hp => by
        simp only [List.mem_cons, List.not_mem_nil, or_false] at hp
        rcases hp with rfl
        exact h5 _ (by simp [setKeep_masterOf]))
    exact hne.trans (getCellValue_setKeep_eq _ a5 v5 w4)
  · exact getCellValue_setKeep_eq _ a6 v6 w5

/-! ### The cloner's per-sheet cell writes -/

theorem cloneSheetForItem_eq_writeCells (f : Worksheet) (i : Nat) (itemOpt : Option Record) :
    cloneSheetForItem f i itemOpt
      = writeCells
          { name := sttName i, masterOf := f.masterOf, values := f.values }
          [("C6", nullish (getField (itemOpt.getD []) "name") (JsonValue.str "")),
           ("C7", nullish (getField (itemOpt.getD []) "year")
              (nullish (getField (itemOpt.getD []) "name2") (JsonValue.str ""))),
           ("C8", nullish (getField (itemOpt.getD []) "school") (JsonValue.str "")),
           ("C9", nullish (getField (itemOpt.getD []) "address") (JsonValue.str "")),
           ("C10", nullish (getField (itemOpt.getD []) "address2") (JsonValue.str "")),
           ("F6", JsonValue.str "Mã lớp: 18")] := rfl

theorem cloneSheetForItem_cells (f : Worksheet) (i : Nat) (itemOpt : Option Record)
    (hwf : f.WF)
    (hd : allDistinct (List.map f.masterOf ["C6", "C7", "C8", "C9", "C10", "F6"]) = true) :
    getCellValue (cloneSheetForItem f i itemOpt) "C6"
        = nullish (getField (itemOpt.getD []) "name") (JsonValue.str "")
    ∧ getCellValue (cloneSheetForItem f i itemOpt) "C7"
        = nullish (getField (itemOpt.getD []) "year")
            (nullish (getField (itemOpt.getD []) "name2") (JsonValue.str ""))
    ∧ getCellValue (cloneSheetForItem f i itemOpt) "C8"
        = nullish (getField (itemOpt.getD []) "school") (JsonValue.str "")
    ∧ getCellValue (cloneSheetForItem f i itemOpt) "C9"
        = nullish (getField (itemOpt.getD []) "address") (JsonValue.str "")
    ∧ getCellValue (cloneSheetForItem f i itemOpt) "C10"
        = nullish (getField (itemOpt.getD []) "address2") (JsonValue.str "")
    ∧ getCellValue (cloneSheetForItem f i itemOpt) "F6" = JsonValue.str "Mã lớp: 18" := by
  rw [cloneSheetForItem_eq_writeCells]
  exact writeCells6 _ "C6" "C7" "C8" "C9" "C10" "F6" _ _ _ _ _ _ hwf (by simpa using hd)

/-! ### Remaining helper lemmas -/

theorem idSheet_WF : idSheet.WF := fun _ => rfl

theorem mergedSheet_WF : mergedSheet.WF := by
  intro a
  dsimp [mergedSheet, Worksheet.WF]
  split_ifs <;> rfl

theorem writeCells_eq_raw : ∀ (ws : List (String × JsonValue)) (s : Worksheet), s.WF →
    writeCells s ws = writeCellsRaw s ws := by
  intro ws
  induction ws with
  | nil => intro s _; rfl
  | cons p rest ih =>
    intro s hwf
    simp only [writeCells, writeCellsRaw, List.foldl_cons]
    rw [show setCellValueKeepingMerge s p.1 p.2 = cellSetValue s p.1 p.2 from
      setKeep_eq_cellSet s p.1 p.2 hwf]
    exact ih (cellSetValue s p.1 p.2) (setKeep_WF s p.1 p.2 hwf)

theorem fillDataToTemplate_eq_writeCells (rootDir : String) (sheet : Worksheet)
    (entry : Record) (fn : String) :
    fillDataToTemplate rootDir sheet entry fn
      = (writeCells sheet
          [("C1", nullish (getField entry "name") (JsonValue.str "")),
           ("C2", nullish (getField entry "year") (JsonValue.str "")),
           ("C3", nullish (getField entry "school") (JsonValue.str "")),
           ("C4", nullish (getField entry "address") (JsonValue.str "")),
           ("C5", nullish (getField entry "address2") (JsonValue.str "")),
           ("C6", nullish (getField entry "classcode") (JsonValue.str ""))],
         joinPath (joinPath rootDir "out") fn) := rfl

theorem fillDataToTemplateEarlier_eq_writeCellsRaw (rootDir : String) (sheet : Worksheet)
    (entry : Record) (fn : String) :
    fillDataToTemplateEarlier rootDir sheet entry fn
      = (writeCellsRaw sheet
          [("C1", nullish (getField entry "name") (JsonValue.str "")),
           ("C2", nullish (getField entry "year") (JsonValue.str "")),
           ("C3", nullish (getField entry "school") (JsonValue.str "")),
           ("C4", nullish (getField entry "address") (JsonValue.str "")),
           ("C5", nullish (getField entry "address2") (JsonValue.str "")),
           ("C6", nullish (getField entry "classcode") (JsonValue.str ""))],
         joinPath (joinPath rootDir "out") fn) := rfl

theorem copyMasterCells_nonmaster : ∀ (addrs : List String) (src dst : Worksheet),
    dst.masterOf = src.masterOf → ∀ b, src.masterOf b ≠ b →
    (copyMasterCells src dst addrs).values b = dst.values b := by
  intro addrs
  induction addrs with
  | nil => intro src dst _ b _; rfl
  | cons a rest ih =>
    intro src dst hm b hb
    simp only [copyMasterCells, List.foldl_cons]
    by_cases hmaster : src.masterOf a = a
    · rw [if_pos hmaster]
      have hstep : (cellSetValue dst a (src.values a)).values b = dst.values b := by
        simp only [cellSetValue]
        rw [if_neg]
        intro he
        rw [hm, hmaster] at he
        exact absurd hmaster (he ▸ hb)
      have htail := ih src (cellSetValue dst a (src.values a)) hm b hb
      exact htail.trans hstep
    · rw [if_neg hmaster]
      exact ih src dst hm b hb

theorem readData_ok_inv (fsys : String → Option String) (parse : String → Option JsonValue)
    (dp : Option String) (recs : List Record)
    (h : readDataWithClasscodes fsys parse dp = Except.ok recs) :
    ∃ raw xs, fsys (resolveDataPath dp) = some raw ∧ parse raw = some (JsonValue.arr xs)
      ∧ recs = addClasscodes xs := by
  simp only [readDataWithClasscodes] at h
  cases hf : fsys (resolveDataPath dp) with
  | none => rw [hf] at h; exact absurd h (by simp)
  | some raw =>
    rw [hf] at h
    cases hp : parse raw with
    | none => simp [hp] at h
    | some v =>
      cases v with
      | arr xs =>
        simp only [hp, Except.ok.injEq] at h
        exact ⟨raw, xs, rfl, hp, h.symm⟩
      | null => simp [hp] at h
      | bool b => simp [hp] at h
      | num n => simp [hp] at h
      | str s2 => simp [hp] at h
      | obj fs => simp [hp] at h

/-! ### Claim theorems -/

/-- C1: every write into a worksheet resolves through the merged-range
master: `setCellValueKeepingMerge` assigns the value to the master (top-left)
cell of the range containing the address (a cell that is its own master,
by idempotence), changes no other cell, and in particular never writes a
non-master member cell; and the Sheet Cloner's cell-copy loop copies a
source cell only when it is its own merge master, so non-master member
addresses of the (structure-sharing) destination sheet are never written. -/
theorem merge_master_write_resolution (s : Worksheet) (addr : String) (v : JsonValue)
    (hwf : s.WF) (src dst : Worksheet) (addrs : List String)
    (hm : dst.masterOf = src.masterOf) :
    (setCellValueKeepingMerge s addr v).values (s.masterOf addr) = v
    ∧ s.masterOf (s.masterOf addr) = s.masterOf addr
    ∧ (∀ b, b ≠ s.masterOf addr → (setCellValueKeepingMerge s addr v).values b = s.values b)
    ∧ (∀ b, s.masterOf b ≠ b → (setCellValueKeepingMerge s addr v).values b = s.values b)
    ∧ (∀ b, src.masterOf b ≠ b → (copyMasterCells src dst addrs).values b = dst.values b) := by
  refine ⟨?_, hwf addr, ?_, ?_, ?_⟩
  · rw [values_setKeep s addr v hwf, if_pos rfl]
  · intro b hb
    rw [values_setKeep s addr v hwf, if_neg hb]
  · intro b hb
    have hne : b ≠ s.masterOf addr := fun he => hb (by rw [he]; exact hwf addr)
    rw [values_setKeep s addr v hwf, if_neg hne]
  · intro b hb
    exact copyMasterCells_nonmaster addrs src dst hm b hb

/-- Witness for C1 on the concrete sheet whose range B1:C1 is merged with
master B1: writing "x" at C1 lands on B1, leaves C1 untouched, and the copy
loop never writes the non-master member C1. -/
theorem merge_master_write_resolution_witness :
    (setCellValueKeepingMerge mergedSheet "C1" (JsonValue.str "x")).values "B1"
        = JsonValue.str "x"
    ∧ (setCellValueKeepingMerge mergedSheet "C1" (JsonValue.str "x")).values "C1"
        = mergedSheet.values "C1"
    ∧ (copyMasterCells mergedSheet mergedSheet ["C1", "B1"]).values "C1"
        = mergedSheet.values "C1" := by
  have h := merge_master_write_resolution mergedSheet "C1" (JsonValue.str "x")
    mergedSheet_WF mergedSheet mergedSheet ["C1", "B1"] rfl
  exact ⟨h.1, h.2.2.1 "C1" (by decide), h.2.2.2.2 "C1" (by decide)⟩

/-- C2: for an input sequence of N records the cloner produces, for every
index i < N, exactly one worksheet named `"STT-" ++ String(i)`, namely the
clone built from record i; any previously existing sheet with that name is
replaced, the resulting workbook never holds duplicate STT names, and
re-running the cloner on its own output still yields exactly one sheet per
index (idempotence per index); sheets whose name is not an STT name of the
run are neither added nor removed. -/
theorem clone_sheets_named_and_idempotent (f : Worksheet) (wb : List Worksheet)
    (items : List (Option Record)) (hwb : ∀ n, countName wb n ≤ 1)
    (i : Nat) (hi : i < items.length) :
    countName (createCopiesFromTemplateAll f wb items) (sttName i) = 1
    ∧ getWorksheet (createCopiesFromTemplateAll f wb items) (sttName i)
        = some (cloneSheetForItem f i (items.get ⟨i, hi⟩))
    ∧ (∀ n, countName (createCopiesFromTemplateAll f wb items) n ≤ 1)
    ∧ countName
        (createCopiesFromTemplateAll f (createCopiesFromTemplateAll f wb items) items)
        (sttName i) = 1
    ∧ (∀ n, (∀ k, k < items.length → n ≠ sttName k) →
        countName (createCopiesFromTemplateAll f wb items) n = countName wb n) := by
  have hstt := cloneLoop_filterName_stt items f wb 0 i hi hwb
  simp only [Nat.zero_add] at hstt
  have hinv := cloneLoop_count_le items f wb 0 hwb
  have hstt2 := cloneLoop_filterName_stt items f (cloneLoop f wb items 0) 0 i hi hinv
  simp only [Nat.zero_add] at hstt2
  refine ⟨?_, ?_, hinv, ?_, ?_⟩
  · show (filterName (cloneLoop f wb items 0) (sttName i)).length = 1
    rw [hstt]
    rfl
  · exact getWorksheet_of_filterName_singleton _ _ _ hstt
  · show (filterName (cloneLoop f (cloneLoop f wb items 0) items 0) (sttName i)).length = 1
    rw [hstt2]
    rfl
  · intro n hn
    show (filterName (cloneLoop f wb items 0) n).length = countName wb n
    rw [cloneLoop_filterName_out items f wb 0 n (by simpa using hn)]
    rfl

/-- Witness for C2: cloning the two-record demo input into an empty workbook
yields exactly one sheet named STT-0, and re-running on the output again
yields exactly one. -/
theorem clone_sheets_named_and_idempotent_witness :
    countName (createCopiesFromTemplateAll idSheet [] demoItems) (sttName 0) = 1
    ∧ countName
        (createCopiesFromTemplateAll idSheet
          (createCopiesFromTemplateAll idSheet [] demoItems) demoItems) (sttName 0) = 1 := by
  have h := clone_sheets_named_and_idempotent idSheet [] demoItems
    (fun n => Nat.zero_le 1) 0 (by decide)
  exact ⟨h.1, h.2.2.2.1⟩

/-- C3: for every record index i, the cloned sheet STT-i holds, at C6 the
record's name, at C7 its year falling back to name2, at C8 its school, at C9
its address, at C10 its address2 (null/undefined mapped to the empty
string), and at F6 the constant label "Mã lớp: 18" — under the template
sheet's well-formed merge structure with the six target addresses resolving
to pairwise distinct master cells. -/
theorem clone_cell_values (f : Worksheet) (wb : List Worksheet)
    (items : List (Option Record)) (hwb : ∀ n, countName wb n ≤ 1) (hwf : f.WF)
    (hd : allDistinct (List.map f.masterOf ["C6", "C7", "C8", "C9", "C10", "F6"]) = true)
    (i : Nat) (hi : i < items.length) :
    cellOfSheet (getWorksheet (createCopiesFromTemplateAll f wb items) (sttName i)) "C6"
        = some (nullish (getField ((items.get ⟨i, hi⟩).getD []) "name") (JsonValue.str ""))
    ∧ cellOfSheet (getWorksheet (createCopiesFromTemplateAll f wb items) (sttName i)) "C7"
        = some (nullish (getField ((items.get ⟨i, hi⟩).getD []) "year")
            (nullish (getField ((items.get ⟨i, hi⟩).getD []) "name2") (JsonValue.str "")))
    ∧ cellOfSheet (getWorksheet (createCopiesFromTemplateAll f wb items) (sttName i)) "C8"
        = some (nullish (getField ((items.get ⟨i, hi⟩).getD []) "school") (JsonValue.str ""))
    ∧ cellOfSheet (getWorksheet (createCopiesFromTemplateAll f wb items) (sttName i)) "C9"
        = some (nullish (getField ((items.get ⟨i, hi⟩).getD []) "address") (JsonValue.str ""))
    ∧ cellOfSheet (getWorksheet (createCopiesFromTemplateAll f wb items) (sttName i)) "C10"
        = some (nullish (getField ((items.get ⟨i, hi⟩).getD []) "address2") (JsonValue.str ""))
    ∧ cellOfSheet (getWorksheet (createCopiesFromTemplateAll f wb items) (sttName i)) "F6"
        = some (JsonValue.str "Mã lớp: 18") := by
  have hstt := cloneLoop_filterName_stt items f wb 0 i hi hwb
  simp only [Nat.zero_add] at hstt
  have hws : getWorksheet (createCopiesFromTemplateAll f wb items) (sttName i)
      = some (cloneSheetForItem f i (items.get ⟨i, hi⟩)) :=
    getWorksheet_of_filterName_singleton _ _ _ hstt
  have hc := cloneSheetForItem_cells f i (items.get ⟨i, hi⟩) hwf hd
  rw [hws]
  simp only [cellOfSheet, Option.map_some']
  exact ⟨congrArg some hc.1, congrArg some hc.2.1, congrArg some hc.2.2.1,
    congrArg some hc.2.2.2.1, congrArg some hc.2.2.2.2.1, congrArg some hc.2.2.2.2.2⟩

/-- Witness for C3, the spec's concrete scenario: cloning
`[{ "name": "A" }, { "name": "B" }]` gives C6 = "A" on STT-0, C6 = "B" on
STT-1, and F6 = "Mã lớp: 18" on both. -/
theorem clone_cell_values_witness :
    cellOfSheet (getWorksheet (createCopiesFromTemplateAll idSheet [] demoItems) (sttName 0)) "C6"
        = some (JsonValue.str "A")
    ∧ cellOfSheet (getWorksheet (createCopiesFromTemplateAll idSheet [] demoItems) (sttName 1)) "C6"
        = some (JsonValue.str "B")
    ∧ cellOfSheet (getWorksheet (createCopiesFromTemplateAll idSheet [] demoItems) (sttName 0)) "F6"
        = some (JsonValue.str "Mã lớp: 18")
    ∧ cellOfSheet (getWorksheet (createCopiesFromTemplateAll idSheet [] demoItems) (sttName 1)) "F6"
        = some (JsonValue.str "Mã lớp: 18") := by
  have h0 := clone_cell_values idSheet [] demoItems (fun n => Nat.zero_le 1) idSheet_WF
    rfl 0 (by decide)
  have h1 := clone_cell_values idSheet [] demoItems (fun n => Nat.zero_le 1) idSheet_WF
    rfl 1 (by decide)
  exact ⟨h0.1.trans rfl, h1.1.trans rfl, h0.2.2.2.2.2, h1.2.2.2.2.2⟩

/-- C4: for every successfully loaded input array, the record at index i has
`classcode = 18 + floor(i / 20)`; consequently the classcode is
non-decreasing in i and constant within each block of 20 consecutive
indices. -/
theorem classcode_formula (fsys : String → Option String) (parse : String → Option JsonValue)
    (dp : Option String) (recs : List Record)
    (hok : readDataWithClasscodes fsys parse dp = Except.ok recs) :
    (∀ i (hi : i < recs.length),
        getField (recs.get ⟨i, hi⟩) "classcode"
          = some (JsonValue.num (Int.ofNat (18 + i / 20))))
    ∧ (∀ i j (hi : i < recs.length) (hj : j < recs.length), i ≤ j →
        ∀ a b : Int, getField (recs.get ⟨i, hi⟩) "classcode" = some (JsonValue.num a) →
          getField (recs.get ⟨j, hj⟩) "classcode" = some (JsonValue.num b) → a ≤ b)
    ∧ (∀ i j (hi : i < recs.length) (hj : j < recs.length), i / 20 = j / 20 →
        getField (recs.get ⟨i, hi⟩) "classcode" = getField (recs.get ⟨j, hj⟩) "classcode") := by
  obtain ⟨raw, xs, hf, hp, hrecs⟩ := readData_ok_inv fsys parse dp recs hok
  subst hrecs
  have hget : ∀ i (hi : i < (addClasscodes xs).length),
      getField ((addClasscodes xs).get ⟨i, hi⟩) "classcode"
        = some (JsonValue.num (Int.ofNat (18 + i / 20))) := by
    intro i hi
    have hix : i < xs.length := by
      rw [← addClasscodesFrom_length xs 0]
      exact hi
    show getField ((addClasscodesFrom 0 xs).get ⟨i, hi⟩) "classcode"
      = some (JsonValue.num (Int.ofNat (18 + i / 20)))
    rw [addClasscodesFrom_get xs 0 i hix hi, getField_setField_self]
    simp
  refine ⟨hget, ?_, ?_⟩
  · intro i j hi hj hij a b ha hb
    rw [hget i hi] at ha
    rw [hget j hj] at hb
    have ha2 : a = Int.ofNat (18 + i / 20) := by
      simpa using ha.symm
    have hb2 : b = Int.ofNat (18 + j / 20) := by
      simpa using hb.symm
    subst ha2
    subst hb2
    have : 18 + i / 20 ≤ 18 + j / 20 := by omega
    exact Int.ofNat_le.mpr this
  · intro i j hi hj hdiv
    rw [hget i hi, hget j hj, hdiv]

/-- Witness for C4 on the spec's two-record data file: both records get
classcode 18, and the block-constancy instance for indices 0 and 1 holds. -/
theorem classcode_formula_witness :
    getField ((addClasscodes
        [JsonValue.obj [("name", JsonValue.str "A")],
         JsonValue.obj [("name", JsonValue.str "B")]]).get ⟨0, by decide⟩) "classcode"
      = some (JsonValue.num (Int.ofNat 18))
    ∧ getField ((addClasscodes
        [JsonValue.obj [("name", JsonValue.str "A")],
         JsonValue.obj [("name", JsonValue.str "B")]]).get ⟨1, by decide⟩) "classcode"
      = some (JsonValue.num (Int.ofNat 18)) := by
  have h := classcode_formula demoFsys demoParse none _ rfl
  exact ⟨(h.1 0 (by decide)).trans rfl, (h.1 1 (by decide)).trans rfl⟩

/-- C5: `fillDataToTemplate` sets exactly the six fixed addresses C1..C6 of
the `data` worksheet to the record's name, year, school, address, address2
and classcode in that order (null/undefined mapped to the empty string):
reading the six cells of the result yields the six field values, and every
cell outside the six target master cells is unchanged — under a well-formed
merge structure in which the six addresses resolve to pairwise distinct
masters. -/
theorem fill_template_cells (rootDir : String) (sheet : Worksheet) (entry : Record)
    (fn : String) (hwf : sheet.WF)
    (hd : allDistinct (List.map sheet.masterOf ["C1", "C2", "C3", "C4", "C5", "C6"]) = true) :
    getCellValue (fillDataToTemplate rootDir sheet entry fn).1 "C1"
        = nullish (getField entry "name") (JsonValue.str "")
    ∧ getCellValue (fillDataToTemplate rootDir sheet entry fn).1 "C2"
        = nullish (getField entry "year") (JsonValue.str "")
    ∧ getCellValue (fillDataToTemplate rootDir sheet entry fn).1 "C3"
        = nullish (getField entry "school") (JsonValue.str "")
    ∧ getCellValue (fillDataToTemplate rootDir sheet entry fn).1 "C4"
        = nullish (getField entry "address") (JsonValue.str "")
    ∧ getCellValue (fillDataToTemplate rootDir sheet entry fn).1 "C5"
        = nullish (getField entry "address2") (JsonValue.str "")
    ∧ getCellValue (fillDataToTemplate rootDir sheet entry fn).1 "C6"
        = nullish (getField entry "classcode") (JsonValue.str "")
    ∧ (∀ b, (∀ a ∈ ["C1", "C2", "C3", "C4", "C5", "C6"], b ≠ sheet.masterOf a) →
        (fillDataToTemplate rootDir sheet entry fn).1.values b = sheet.values b) := by
  rw [fillDataToTemplate_eq_writeCells]
  have h6 := writeCells6 sheet "C1" "C2" "C3" "C4" "C5" "C6"
    (nullish (getField entry "name") (JsonValue.str ""))
    (nullish (getField entry "year") (JsonValue.str ""))
    (nullish (getField entry "school") (JsonValue.str ""))
    (nullish (getField entry "address") (JsonValue.str ""))
    (nullish (getField entry "address2") (JsonValue.str ""))
    (nullish (getField entry "classcode") (JsonValue.str ""))
    hwf (by simpa using hd)
  refine ⟨h6.1, h6.2.1, h6.2.2.1, h6.2.2.2.1, h6.2.2.2.2.1, h6.2.2.2.2.2, ?_⟩
  intro b hb
  apply values_writeCells_ne _ sheet b hwf
  intro p hp
  simp only [List.mem_cons, List.not_mem_nil, or_false] at hp
  rcases hp with rfl | rfl | rfl | rfl | rfl | rfl
  · exact hb "C1" (by simp)
  · exact hb "C2" (by simp)
  · exact hb "C3" (by simp)
  · exact hb "C4" (by simp)
  · exact hb "C5" (by simp)
  · exact hb "C6" (by simp)

/-- Witness for C5 on a merge-free sheet and the record
`{name: "N", classcode: 21}`: C1 reads back "N", C6 reads back 21, and an
unrelated cell D1 is unchanged. -/
theorem fill_template_cells_witness :
    getCellValue (fillDataToTemplate "root" idSheet
        [("name", JsonValue.str "N"), ("classcode", JsonValue.num (Int.ofNat 21))] "o.xlsx").1 "C1"
      = JsonValue.str "N"
    ∧ getCellValue (fillDataToTemplate "root" idSheet
        [("name", JsonValue.str "N"), ("classcode", JsonValue.num (Int.ofNat 21))] "o.xlsx").1 "C6"
      = JsonValue.num (Int.ofNat 21)
    ∧ (fillDataToTemplate "root" idSheet
        [("name", JsonValue.str "N"), ("classcode", JsonValue.num (Int.ofNat 21))] "o.xlsx").1.values "D1"
      = idSheet.values "D1" := by
  have h := fill_template_cells "root" idSheet
    [("name", JsonValue.str "N"), ("classcode", JsonValue.num (Int.ofNat 21))] "o.xlsx"
    idSheet_WF rfl
  exact ⟨h.1.trans rfl, (h.2.2.2.2.2.1).trans rfl,
    h.2.2.2.2.2.2 "D1" (by intro a ha; fin_cases ha <;> decide)⟩

/-- C6: the loader fails with `NotFound` (carrying the resolved path) exactly
when the data file is absent, fails with `ShapeError` exactly when the file
exists and parses to a JSON value that is not an array, and on any failure
no record sequence is produced. -/
theorem loader_error_taxonomy (fsys : String → Option String)
    (parse : String → Option JsonValue) (dp : Option String) :
    ((readDataWithClasscodes fsys parse dp
        = Except.error (LoadError.notFound (resolveDataPath dp)))
      ↔ fsys (resolveDataPath dp) = none)
    ∧ ((readDataWithClasscodes fsys parse dp = Except.error LoadError.shapeError)
      ↔ ∃ raw v, fsys (resolveDataPath dp) = some raw ∧ parse raw = some v
          ∧ ∀ ys, v ≠ JsonValue.arr ys)
    ∧ (∀ e, readDataWithClasscodes fsys parse dp = Except.error e →
        ∀ recs, readDataWithClasscodes fsys parse dp ≠ Except.ok recs) := by
  refine ⟨⟨?_, ?_⟩, ⟨?_, ?_⟩, ?_⟩
  · intro h
    cases hf : fsys (resolveDataPath dp) with
    | none => rfl
    | some raw =>
      simp only [readDataWithClasscodes, hf] at h
      cases hp : parse raw with
      | none => simp [hp] at h
      | some v => cases v <;> simp [hp] at h
  · intro h
    simp [readDataWithClasscodes, h]
  · intro h
    cases hf : fsys (resolveDataPath dp) with
    | none => simp [readDataWithClasscodes, hf] at h
    | some raw =>
      simp only [readDataWithClasscodes, hf] at h
      cases hp : parse raw with
      | none => simp [hp] at h
      | some v =>
        refine ⟨raw, v, rfl, hp, ?_⟩
        intro ys
        cases v with
        | arr xs => simp [hp] at h
        | null => simp
        | bool b => simp
        | num n => simp
        | str s2 => simp
        | obj fs => simp
  · rintro ⟨raw, v, hf, hp, hv⟩
    simp only [readDataWithClasscodes, hf, hp]
  · intro e he recs
    rw [he]
    simp

/-- Witness for C6: with no files on disk, loading fails with `NotFound` for
the default path; with a data file that parses to a JSON object, loading
fails with `ShapeError`; and the witnessed failures exclude success. -/
theorem loader_error_taxonomy_witness :
    readDataWithClasscodes emptyFsys demoParse none
        = Except.error (LoadError.notFound "data2.json")
    ∧ readDataWithClasscodes demoFsys objParse none = Except.error LoadError.shapeError
    ∧ ∀ recs, readDataWithClasscodes demoFsys objParse none ≠ Except.ok recs := by
  refine ⟨?_, ?_, ?_⟩
  · exact (loader_error_taxonomy emptyFsys demoParse none).1.mpr rfl
  · exact (loader_error_taxonomy demoFsys objParse none).2.1.mpr
      ⟨"DATA", JsonValue.obj [], rfl, rfl, fun ys => by simp⟩
  · exact (loader_error_taxonomy demoFsys objParse none).2.2 LoadError.shapeError
      ((loader_error_taxonomy demoFsys objParse none).2.1.mpr
        ⟨"DATA", JsonValue.obj [], rfl, rfl, fun ys => by simp⟩)

/-- C7: one iteration of the cloner's merge-application loop leaves the loop
running on the remaining ranges whatever happened to the current one; a
`mergeCells` failure on a string range is caught and leaves the sheet
unchanged (no error escapes, the function is total); a succeeding range is
applied; and a non-string entry is skipped. -/
theorem merge_failure_isolation (mc : Worksheet → String → Option Worksheet)
    (s : Worksheet) (r : JsonValue) (rest : List JsonValue) :
    applyMergeRanges mc s (r :: rest) = applyMergeRanges mc (applyOneMerge mc s r) rest
    ∧ (∀ rs, mc s rs = none → applyOneMerge mc s (JsonValue.str rs) = s)
    ∧ (∀ rs t, r = JsonValue.str rs → rs.contains ':' = true → mc s rs = some t →
        applyOneMerge mc s r = t)
    ∧ ((∀ rs, r ≠ JsonValue.str rs) → applyOneMerge mc s r = s) := by
  refine ⟨rfl, ?_, ?_, ?_⟩
  · intro rs hmc
    by_cases hc : rs.contains ':'
    · simp [applyOneMerge, hc, hmc]
    · simp [applyOneMerge, hc]
  · intro rs t hr hc hmc
    subst hr
    simp [applyOneMerge, hc, hmc]
  · intro hns
    cases r with
    | str rs => exact absurd rfl (hns rs)
    | null => rfl
    | bool b => rfl
    | num n => rfl
    | arr xs => rfl
    | obj fs => rfl

/-- Witness for C7: a `mergeCells` stub that always throws leaves the sheet
unchanged on the range "A1:B2", and a whole batch containing that failing
range and a malformed non-string entry completes, returning the sheet. -/
theorem merge_failure_isolation_witness :
    applyOneMerge mcFail idSheet (JsonValue.str "A1:B2") = idSheet
    ∧ applyMergeRanges mcFail idSheet [JsonValue.str "A1:B2", JsonValue.num 3]
        = applyMergeRanges mcFail (applyOneMerge mcFail idSheet (JsonValue.str "A1:B2"))
            [JsonValue.num 3] := by
  refine ⟨?_, ?_⟩
  · exact (merge_failure_isolation mcFail idSheet (JsonValue.str "A1:B2") []).2.1 "A1:B2" rfl
  · exact (merge_failure_isolation mcFail idSheet (JsonValue.str "A1:B2")
      [JsonValue.num 3]).1

/-- C8: the loader returns one output record per input element in the
original order; each output record is its input element's fields with
`classcode` set to the positional formula, and every field other than
`classcode` keeps its input value. -/
theorem loader_frame (fsys : String → Option String) (parse : String → Option JsonValue)
    (dp : Option String) (recs : List Record) (raw : String) (xs : List JsonValue)
    (hok : readDataWithClasscodes fsys parse dp = Except.ok recs)
    (hraw : fsys (resolveDataPath dp) = some raw)
    (hparse : parse raw = some (JsonValue.arr xs)) :
    recs.length = xs.length
    ∧ (∀ i (hi : i < recs.length) (hxi : i < xs.length) (fs : List (String × JsonValue)),
        xs.get ⟨i, hxi⟩ = JsonValue.obj fs →
        ∀ k, k ≠ "classcode" → getField (recs.get ⟨i, hi⟩) k = getField fs k)
    ∧ (∀ i (hi : i < recs.length),
        getField (recs.get ⟨i, hi⟩) "classcode"
          = some (JsonValue.num (Int.ofNat (18 + i / 20)))) := by
  obtain ⟨raw2, xs2, hf2, hp2, hrecs⟩ := readData_ok_inv fsys parse dp recs hok
  have hraw2 : raw2 = raw := by
    have := hf2.symm.trans hraw
    exact (Option.some.injEq _ _).mp this
  have hxs2 : xs2 = xs := by
    rw [hraw2] at hp2
    have h1 := hp2.symm.trans hparse
    have h2 := (Option.some.injEq _ _).mp h1
    exact (JsonValue.arr.injEq _ _).mp h2
  have hre : recs = addClasscodes xs := by
    rw [hrecs, hxs2]
  subst hre
  refine ⟨addClasscodesFrom_length xs 0, ?_, ?_⟩
  · intro i hi hxi fs hobj k hk
    show getField ((addClasscodesFrom 0 xs).get ⟨i, hi⟩) k = getField fs k
    rw [addClasscodesFrom_get xs 0 i hxi hi, getField_setField_ne _ _ _ _ hk, hobj]
    rfl
  · intro i hi
    have hxi : i < xs.length := by
      rw [← addClasscodesFrom_length xs 0]
      exact hi
    show getField ((addClasscodesFrom 0 xs).get ⟨i, hi⟩) "classcode"
      = some (JsonValue.num (Int.ofNat (18 + i / 20)))
    rw [addClasscodesFrom_get xs 0 i hxi hi, getField_setField_self]
    simp

/-- Witness for C8 on the two-record demo input: two records come out, the
`name` field of record 0 is exactly the input's, and `classcode` is added. -/
theorem loader_frame_witness :
    (addClasscodes
        [JsonValue.obj [("name", JsonValue.str "A")],
         JsonValue.obj [("name", JsonValue.str "B")]]).length = 2
    ∧ getField ((addClasscodes
        [JsonValue.obj [("name", JsonValue.str "A")],
         JsonValue.obj [("name", JsonValue.str "B")]]).get ⟨0, by decide⟩) "name"
      = getField [("name", JsonValue.str "A")] "name"
    ∧ getField ((addClasscodes
        [JsonValue.obj [("name", JsonValue.str "A")],
         JsonValue.obj [("name", JsonValue.str "B")]]).get ⟨0, by decide⟩) "classcode"
      = some (JsonValue.num (Int.ofNat 18)) := by
  have h := loader_frame demoFsys demoParse none _ "DATA"
    [JsonValue.obj [("name", JsonValue.str "A")], JsonValue.obj [("name", JsonValue.str "B")]]
    rfl rfl rfl
  exact ⟨h.1.trans rfl, h.2.1 0 (by decide) (by decide) [("name", JsonValue.str "A")] rfl
    "name" (by decide), (h.2.2 0 (by decide)).trans rfl⟩

/-- C9: the duplicate earlier `fillDataToTemplate` variant is the same logic
as the current one: on any well-formed template worksheet state and for
every entry and output file name, both write the same values to the same
cells and return the same output path (the results, sheet and path alike,
are equal). -/
theorem fill_variants_equivalent (rootDir : String) (sheet : Worksheet) (entry : Record)
    (fn : String) (hwf : sheet.WF) :
    fillDataToTemplateEarlier rootDir sheet entry fn
      = fillDataToTemplate rootDir sheet entry fn := by
  rw [fillDataToTemplate_eq_writeCells, fillDataToTemplateEarlier_eq_writeCellsRaw,
    writeCells_eq_raw _ sheet hwf]

/-- Witness for C9 on the merged demo sheet (B1:C1 merged): both variants
produce identical results. -/
theorem fill_variants_equivalent_witness :
    fillDataToTemplateEarlier "root" mergedSheet [("name", JsonValue.str "N")] "o.xlsx"
      = fillDataToTemplate "root" mergedSheet [("name", JsonValue.str "N")] "o.xlsx" :=
  fill_variants_equivalent "root" mergedSheet [("name", JsonValue.str "N")] "o.xlsx"
    mergedSheet_WF

/-- C10: a null/undefined element of the input sequence does not make the
cloner fail: the empty record is substituted, the sheet STT-i is still
created (exactly one sheet with that name), the five data cells C6..C10 read
back as the empty string, and F6 reads back as the constant label. -/
theorem null_record_safe (f : Worksheet) (wb : List Worksheet)
    (items : List (Option Record)) (hwb : ∀ n, countName wb n ≤ 1) (hwf : f.WF)
    (hd : allDistinct (List.map f.masterOf ["C6", "C7", "C8", "C9", "C10", "F6"]) = true)
    (i : Nat) (hi : i < items.length) (hnull : items.get ⟨i, hi⟩ = none) :
    countName (createCopiesFromTemplateAll f wb items) (sttName i) = 1
    ∧ cellOfSheet (getWorksheet (createCopiesFromTemplateAll f wb items) (sttName i)) "C6"
        = some (JsonValue.str "")
    ∧ cellOfSheet (getWorksheet (createCopiesFromTemplateAll f wb items) (sttName i)) "C7"
        = some (JsonValue.str "")
    ∧ cellOfSheet (getWorksheet (createCopiesFromTemplateAll f wb items) (sttName i)) "C8"
        = some (JsonValue.str "")
    ∧ cellOfSheet (getWorksheet (createCopiesFromTemplateAll f wb items) (sttName i)) "C9"
        = some (JsonValue.str "")
    ∧ cellOfSheet (getWorksheet (createCopiesFromTemplateAll f wb items) (sttName i)) "C10"
        = some (JsonValue.str "")
    ∧ cellOfSheet (getWorksheet (createCopiesFromTemplateAll f wb items) (sttName i)) "F6"
        = some (JsonValue.str "Mã lớp: 18") := by
  have hstt := cloneLoop_filterName_stt items f wb 0 i hi hwb
  simp only [Nat.zero_add] at hstt
  have hws : getWorksheet (createCopiesFromTemplateAll f wb items) (sttName i)
      = some (cloneSheetForItem f i (items.get ⟨i, hi⟩)) :=
    getWorksheet_of_filterName_singleton _ _ _ hstt
  have hcount : countName (createCopiesFromTemplateAll f wb items) (sttName i) = 1 := by
    show (filterName (cloneLoop f wb items 0) (sttName i)).length = 1
    rw [hstt]
    rfl
  have hc := cloneSheetForItem_cells f i (items.get ⟨i, hi⟩) hwf hd
  rw [hnull] at hws hc
  rw [hws]
  simp only [cellOfSheet, Option.map_some']
  exact ⟨hcount, congrArg some hc.1, congrArg some hc.2.1, congrArg some hc.2.2.1,
    congrArg some hc.2.2.2.1, congrArg some hc.2.2.2.2.1, congrArg some hc.2.2.2.2.2⟩

/-- Witness for C10: cloning the one-element input `[null]` still creates
STT-0, with empty strings in C6 and C10 and the label in F6. -/
theorem null_record_safe_witness :
    countName (createCopiesFromTemplateAll idSheet [] demoItemsNull) (sttName 0) = 1
    ∧ cellOfSheet (getWorksheet (createCopiesFromTemplateAll idSheet [] demoItemsNull)
        (sttName 0)) "C6" = some (JsonValue.str "")
    ∧ cellOfSheet (getWorksheet (createCopiesFromTemplateAll idSheet [] demoItemsNull)
        (sttName 0)) "C10" = some (JsonValue.str "")
    ∧ cellOfSheet (getWorksheet (createCopiesFromTemplateAll idSheet [] demoItemsNull)
        (sttName 0)) "F6" = some (JsonValue.str "Mã lớp: 18") := by
  have h := null_record_safe idSheet [] demoItemsNull (fun n => Nat.zero_le 1) idSheet_WF
    rfl 0 (by decide) rfl
  exact ⟨h.1, h.2.1, h.2.2.2.2.2.1, h.2.2.2.2.2.2⟩
